import Mathlib

/-!
Shallow embedding of the engine gateway from `remote-uci/src/engine.rs`
(lichess external engine). The `Engine` state machine, its admission-controlled
send paths (`send`, `send_dangerous`), the receive path (`recv`), the idle
predicate and the `ensure_idle` orchestration loop are translated from the
source. The codec types (`UciIn`, `UciOut`) and the option shapes
(`UciOption` with `validate`, `limit_max`, `max`) live in a module that is not
part of the core source; those are modelled from the specification, as marked.

Transmission is made explicit: each send returns the updated state, the list of
commands written to the subprocess (empty or a singleton), and an optional
recoverable error. The receive path consumes a list of already-decoded events
standing for the parsed lines of the subprocess output stream.
-/

namespace RemoteUci

/-- Modelled from the spec: an `OptionSpec` is one of Boolean(default),
Integer(default, min, max), Enumerated(default, allowed-values), Action,
Text(default). -/
inductive UciOption where
  | boolean (default : Bool)
  | integer (default lo hi : Int)
  | enumerated (default : String) (allowed : List String)
  | action
  | text (default : String)
deriving DecidableEq

/-- Modelled from the spec: an `OptionSpec` can validate a candidate value
against its shape; a value outside a declared numeric range, or not among the
allowed values of an enumerated option, is invalid. -/
def UciOption.validate : UciOption → Option String → Bool
  | .boolean _, some s => s == "true" || s == "false"
  | .boolean _, none => false
  | .integer _ lo hi, some s =>
    match s.toInt? with
    | some v => decide (lo ≤ v) && decide (v ≤ hi)
    | none => false
  | .integer _ _ _, none => false
  | .enumerated _ allowed, some s => allowed.contains s
  | .enumerated _ _, none => false
  | .action, v => v.isNone
  | .text _, some _ => true
  | .text _, none => false

/-- Modelled from the spec: the declared maximum of an option may be lowered
(never raised) by local policy; shapes without a numeric range are unchanged. -/
def UciOption.limit_max : UciOption → Int → UciOption
  | .integer d lo hi, m => .integer d lo (min hi m)
  | o, _ => o

/-- Modelled from the spec: the declared maximum of an option, when its shape
has one. -/
def UciOption.max : UciOption → Option Int
  | .integer _ _ hi => some hi
  | _ => none

/-- Modelled from the spec: the inbound command set — start-handshake (`uci`),
readiness-probe (`isready`), configuration-set (`setoption`), new-game-reset
(`ucinewgame`), search-start (`go`), interrupt (`stop`), ponder-continue
(`ponderhit`). Option names are normalized identifiers, embedded as strings. -/
inductive UciIn where
  | uci
  | isready
  | setoption (name : String) (value : Option String)
  | ucinewgame
  | go
  | stop
  | ponderhit
deriving DecidableEq

/-- Modelled from the spec: the outbound event set — identity-announcement
(`idName`), handshake-complete (`uciok`), ready-acknowledgment (`readyok`),
search-result (`bestmove`), option-advertisement (`option`), progress-info
(`info`) with its structured sub-fields (principal variation, score, free
text), plus other grammar-defined event types (`other`). -/
inductive UciOut where
  | idName (name : String)
  | uciok
  | readyok
  | bestmove
  | option (name : String) (opt : UciOption)
  | info (pv : Option (List String)) (score : Option Int) (str : Option String)
  | other
deriving DecidableEq

/-- `EngineParameters` from the source: operator-configured ceilings
`max_threads` and `max_hash` (u32 fields, embedded as naturals). -/
structure EngineParameters where
  max_threads : Nat
  max_hash : Nat
deriving DecidableEq

/-- The lookup of a `HashMap<UciOptionName, UciOption>` embedded as an
association list: the value paired with the first matching key. -/
def optionsGet : List (String × UciOption) → String → Option UciOption
  | [], _ => none
  | (k, v) :: rest, n => if k = n then some v else optionsGet rest n

/-- The insert of a `HashMap<UciOptionName, UciOption>` embedded on
association lists: the new pair replaces any previous entry for the key. -/
def optionsInsert (m : List (String × UciOption)) (k : String) (v : UciOption) :
    List (String × UciOption) :=
  (k, v) :: m.filter (fun p => p.1 != k)

/-- The `Engine` struct from the source: pending-ack counters (u64, embedded
as naturals), the busy flag, the option registry, the cached identity and the
resource limits. The buffered process streams are externalized (sends return
the transmitted commands; `recv` consumes a list of decoded events). -/
structure Engine where
  pending_uciok : Nat
  pending_readyok : Nat
  searching : Bool
  options : List (String × UciOption)
  name : Option String
  params : EngineParameters
deriving DecidableEq

/-- The state an `Engine` is constructed with in `Engine::new`, before the
construction handshake runs. -/
def Engine.init (params : EngineParameters) : Engine :=
  { pending_uciok := 0
    pending_readyok := 0
    searching := false
    options := []
    name := none
    params := params }

/-- The recoverable errors raised by the send path: `resourceBusy` for a
non-exempt command while searching, `invalidOptionValue` for a configuration
value failing validation. (Transport failures of the byte streams are outside
the embedding.) -/
inductive SendError where
  | resourceBusy
  | invalidOptionValue
deriving DecidableEq

/-- `Engine::send_dangerous` from the source: the unscreened send. Returns the
updated state, the commands actually written to the subprocess (a singleton on
success, empty on an error or a silently dropped command), and the error, if
any. The match arms follow the source order: `Isready` always increments
`pending_readyok` and is transmitted; `Stop` and `Ponderhit` always pass;
everything else is rejected while `searching`; `Uci` increments
`pending_uciok` and clears the registry and the cached name; `Go` sets
`searching`; `Setoption` is checked against the registry; the rest pass
through. -/
def Engine.send_dangerous (e : Engine) (command : UciIn) :
    Engine × List UciIn × Option SendError :=
  match command with
  | .isready => ({ e with pending_readyok := e.pending_readyok + 1 }, [command], none)
  | .stop | .ponderhit => (e, [command], none)
  | _ =>
    if e.searching then
      (e, [], some .resourceBusy)
    else
      match command with
      | .uci =>
        ({ e with pending_uciok := e.pending_uciok + 1, options := [], name := none },
          [command], none)
      | .go => ({ e with searching := true }, [command], none)
      | .setoption n v =>
        match optionsGet e.options n with
        | some o =>
          if o.validate v then (e, [command], none)
          else (e, [], some .invalidOptionValue)
        | none => (e, [], none)
      | _ => (e, [command], none)

/-- `Engine::send` from the source: the screened send. A `setoption` whose
name the safety policy classifies as not safe is silently discarded (success
returned, nothing transmitted, state untouched); every other command is
delegated to `send_dangerous`. The name-safety policy of the codec module is
not part of the core source, so it is passed as a predicate. -/
def Engine.send (e : Engine) (isSafe : String → Bool) (command : UciIn) :
    Engine × List UciIn × Option SendError :=
  match command with
  | .setoption n _ =>
    if isSafe n then e.send_dangerous command else (e, [], none)
  | _ => e.send_dangerous command

/-- The noise filter of `Engine::recv` from the source: an `info` event none
of whose structured sub-fields are populated is skipped. -/
def skipNoise : UciOut → Bool
  | .info none none none => true
  | _ => false

/-- The state-machine update of `Engine::recv` from the source, applied to one
decoded event: `idName` caches the identity, `uciok`/`readyok` decrement their
counters (u64 `saturating_sub`, which is the truncated subtraction of `Nat`),
`bestmove` clears `searching`, and an option advertisement is clamped against
the resource limits when its name is one of the well-known knobs and then
inserted into the registry. Returns the state and the (possibly clamped) event
handed back to the caller, mirroring the in-place mutation of the borrowed
command in the source. -/
def Engine.apply_event (e : Engine) (ev : UciOut) : Engine × UciOut :=
  match ev with
  | .idName n => ({ e with name := some n }, ev)
  | .uciok => ({ e with pending_uciok := e.pending_uciok - 1 }, ev)
  | .readyok => ({ e with pending_readyok := e.pending_readyok - 1 }, ev)
  | .bestmove => ({ e with searching := false }, ev)
  | .option n o =>
    let o2 :=
      if n = "Threads" then o.limit_max (Int.ofNat e.params.max_threads)
      else if n = "Hash" then o.limit_max (Int.ofNat e.params.max_hash)
      else o
    ({ e with options := optionsInsert e.options n o2 }, .option n o2)
  | _ => (e, ev)

/-- The error raised by `Engine::recv` when the output stream is exhausted
(a zero-length read). Decode errors live in the codec, outside the embedding:
the event list models successfully parsed lines. -/
inductive RecvError where
  | unexpectedEof
deriving DecidableEq

/-- `Engine::recv` from the source: reads decoded events until one passes the
noise filter, applies the state-machine update to it and returns it together
with the updated state and the remaining events. -/
def Engine.recv : Engine → List UciOut → Except RecvError (Engine × UciOut × List UciOut)
  | _, [] => .error .unexpectedEof
  | e, ev :: rest =>
    if skipNoise ev then e.recv rest
    else
      let r := e.apply_event ev
      .ok (r.1, r.2, rest)

/-- `Engine::is_idle` from the source. -/
def Engine.is_idle (e : Engine) : Bool :=
  e.pending_uciok == 0 && e.pending_readyok == 0 && !e.searching

/-- `Engine::ensure_idle` from the source, run against a script of decoded
events standing for a simulated engine, with explicit fuel for the loop: while
not idle, if searching with no readiness probe outstanding, send `stop` then
`isready` (through the screened send, as the source does), then receive one
event; accumulates every transmitted command. `none` stands for a run that
does not terminate cleanly within the fuel (or hits an error). -/
def Engine.ensure_idle (isSafe : String → Bool) :
    Nat → Engine → List UciOut → Option (Engine × List UciIn)
  | 0, _, _ => none
  | fuel + 1, e, script =>
    if e.is_idle then some (e, [])
    else
      let sent : Option (Engine × List UciIn) :=
        if e.searching && decide (e.pending_readyok < 1) then
          match e.send isSafe .stop with
          | (e1, out1, none) =>
            match e1.send isSafe .isready with
            | (e2, out2, none) => some (e2, out1 ++ out2)
            | (_, _, some _) => none
          | (_, _, some _) => none
        else some (e, [])
      match sent with
      | none => none
      | some (e2, outs) =>
        match e2.recv script with
        | .error _ => none
        | .ok (e3, _, rest) =>
          match Engine.ensure_idle isSafe fuel e3 rest with
          | none => none
          | some (e4, outs2) => some (e4, outs ++ outs2)

/-- The reachable `Engine` states: the constructed initial state, closed under
the screened send, the unscreened send and the receive-path state update — the
only code that mutates the state. -/
inductive Reachable : Engine → Prop
  | init (params : EngineParameters) : Reachable (Engine.init params)
  | send (e : Engine) (isSafe : String → Bool) (c : UciIn) :
      Reachable e → Reachable (e.send isSafe c).1
  | send_dangerous (e : Engine) (c : UciIn) :
      Reachable e → Reachable (e.send_dangerous c).1
  | recv (e : Engine) (ev : UciOut) :
      Reachable e → Reachable (e.apply_event ev).1

/-- A concrete state in the middle of a search, used to instantiate theorems
about the busy path. -/
def busyEngine : Engine :=
  { pending_uciok := 0
    pending_readyok := 0
    searching := true
    options := []
    name := none
    params := { max_threads := 4, max_hash := 16 } }

/-- A concrete idle state whose registry holds one advertised integer option,
used to instantiate theorems about configuration-set handling. -/
def hashEngine : Engine :=
  { pending_uciok := 0
    pending_readyok := 0
    searching := false
    options := [("Hash", UciOption.integer 16 1 1024)]
    name := none
    params := { max_threads := 4, max_hash := 16 } }

/-- C1: for every reachable engine state, the idle predicate returns true if
and only if both pending-ack counters are zero and the busy flag is clear. -/
theorem c1_idle_iff (e : Engine) (h : Reachable e) :
    e.is_idle = true ↔
      e.pending_uciok = 0 ∧ e.pending_readyok = 0 ∧ e.searching = false := by
  simp [Engine.is_idle, and_assoc]

/-- C1 witness: the equivalence at the constructed initial state. -/
theorem c1_idle_iff_witness :
    (Engine.init ⟨4, 16⟩).is_idle = true ↔
      (Engine.init ⟨4, 16⟩).pending_uciok = 0 ∧
        (Engine.init ⟨4, 16⟩).pending_readyok = 0 ∧
        (Engine.init ⟨4, 16⟩).searching = false :=
  c1_idle_iff (Engine.init ⟨4, 16⟩) (Reachable.init ⟨4, 16⟩)

/-- C2: while the busy flag is set, the unscreened send transmits a
readiness-probe after incrementing `pending_readyok`, transmits an interrupt
or ponder-continue unchanged, and rejects every other command as busy with
nothing transmitted and the state untouched. -/
theorem c2_busy_admission (e : Engine) (h : e.searching = true) :
    e.send_dangerous .isready =
        ({ e with pending_readyok := e.pending_readyok + 1 }, [UciIn.isready], none) ∧
      e.send_dangerous .stop = (e, [UciIn.stop], none) ∧
      e.send_dangerous .ponderhit = (e, [UciIn.ponderhit], none) ∧
      ∀ c : UciIn, c ≠ .isready → c ≠ .stop → c ≠ .ponderhit →
        e.send_dangerous c = (e, [], some .resourceBusy) := by
  refine ⟨rfl, rfl, rfl, ?_⟩
  intro c h1 h2 h3
  cases c <;> simp_all [Engine.send_dangerous]

/-- C2 witness: the busy admission rules at a concrete searching state, with
`go` standing for the rejected commands. -/
theorem c2_busy_admission_witness :
    busyEngine.send_dangerous .isready =
        ({ busyEngine with pending_readyok := busyEngine.pending_readyok + 1 },
          [UciIn.isready], none) ∧
      busyEngine.send_dangerous .stop = (busyEngine, [UciIn.stop], none) ∧
      busyEngine.send_dangerous .ponderhit = (busyEngine, [UciIn.ponderhit], none) ∧
      ∀ c : UciIn, c ≠ .isready → c ≠ .stop → c ≠ .ponderhit →
        busyEngine.send_dangerous c = (busyEngine, [], some .resourceBusy) :=
  c2_busy_admission busyEngine rfl

/-- C3: the screened send silently discards a configuration-set whose name is
not classified safe — success, nothing transmitted, state unchanged, whatever
the value — and delegates every other command unchanged to the unscreened
path. -/
theorem c3_screened_send (e : Engine) (isSafe : String → Bool) :
    (∀ n v, isSafe n = false → e.send isSafe (.setoption n v) = (e, [], none)) ∧
      ∀ c : UciIn, (∀ n v, c = .setoption n v → isSafe n = true) →
        e.send isSafe c = e.send_dangerous c := by
  constructor
  · intro n v h
    simp [Engine.send, h]
  · intro c h
    cases c <;> try rfl
    case setoption n v => simp [Engine.send, h n v rfl]

/-- C3 witness: under a policy that only accepts the name Hash, a
configuration-set named Risky is discarded while a handshake-start is
delegated. -/
theorem c3_screened_send_witness :
    (Engine.init ⟨4, 16⟩).send (fun n => n == "Hash") (.setoption "Risky" none) =
        (Engine.init ⟨4, 16⟩, [], none) ∧
      (Engine.init ⟨4, 16⟩).send (fun n => n == "Hash") .uci =
        (Engine.init ⟨4, 16⟩).send_dangerous .uci :=
  ⟨(c3_screened_send (Engine.init ⟨4, 16⟩) (fun n => n == "Hash")).1 "Risky" none (by decide),
    (c3_screened_send (Engine.init ⟨4, 16⟩) (fun n => n == "Hash")).2 .uci
      (fun n v h => nomatch h)⟩

/-- C4: past the busy check, a configuration-set naming an option absent from
the registry succeeds with nothing transmitted, and one whose value fails
validation errors as invalid-option-value with nothing transmitted. -/
theorem c4_setoption_lookup (e : Engine) (n : String) (v : Option String)
    (hb : e.searching = false) :
    (optionsGet e.options n = none →
        e.send_dangerous (.setoption n v) = (e, [], none)) ∧
      ∀ o : UciOption, optionsGet e.options n = some o → o.validate v = false →
        e.send_dangerous (.setoption n v) = (e, [], some .invalidOptionValue) := by
  constructor
  · intro h
    simp [Engine.send_dangerous, hb, h]
  · intro o ho hv
    simp [Engine.send_dangerous, hb, ho, hv]

/-- C4 witness: at a state knowing only the option Hash with range 1..1024, an
unknown name is dropped and a missing value for the integer shape is
rejected. -/
theorem c4_setoption_lookup_witness :
    (hashEngine.send_dangerous (.setoption "Nope" none) = (hashEngine, [], none)) ∧
      hashEngine.send_dangerous (.setoption "Hash" none) =
        (hashEngine, [], some .invalidOptionValue) :=
  ⟨(c4_setoption_lookup hashEngine "Nope" none rfl).1 (by decide),
    (c4_setoption_lookup hashEngine "Hash" none rfl).2
      (UciOption.integer 16 1 1024) (by decide) (by decide)⟩

/-- C5: when not busy, a handshake-start increments `pending_uciok` by exactly
one, empties the option registry and clears the cached identity, and is
transmitted. -/
theorem c5_uci_resets (e : Engine) (hb : e.searching = false) :
    e.send_dangerous .uci =
      ({ e with pending_uciok := e.pending_uciok + 1, options := [], name := none },
        [UciIn.uci], none) := by
  simp [Engine.send_dangerous, hb]

/-- C5 witness: the handshake-start reset at a state with a populated
registry. -/
theorem c5_uci_resets_witness :
    hashEngine.send_dangerous .uci =
      ({ hashEngine with
          pending_uciok := hashEngine.pending_uciok + 1, options := [], name := none },
        [UciIn.uci], none) :=
  c5_uci_resets hashEngine rfl

/-- Looking up the key just inserted yields the inserted value. -/
theorem optionsGet_insert_self (m : List (String × UciOption)) (k : String)
    (v : UciOption) : optionsGet (optionsInsert m k v) k = some v := by
  simp [optionsInsert, optionsGet]

/-- The receive-path state update never touches the resource limits. -/
theorem apply_event_params (e : Engine) (ev : UciOut) :
    ((e.apply_event ev).1).params = e.params := by
  cases ev <;> simp [Engine.apply_event]

/-- C6: an advertisement of the thread-count or memory-size knob is stored
with its declared maximum clamped to the minimum of the freshly advertised
maximum and the configured limit, replacing any prior entry; and processing
the same advertisement twice leaves the same registry entry as processing it
once. -/
theorem c6_clamp_replace (e : Engine) (d lo hi : Int) :
    optionsGet ((e.apply_event (.option "Threads" (.integer d lo hi))).1).options
          "Threads" =
        some (.integer d lo (min hi (Int.ofNat e.params.max_threads))) ∧
      optionsGet ((e.apply_event (.option "Hash" (.integer d lo hi))).1).options
          "Hash" =
        some (.integer d lo (min hi (Int.ofNat e.params.max_hash))) ∧
      ∀ (n : String) (o : UciOption),
        optionsGet
            ((((e.apply_event (.option n o)).1).apply_event (.option n o)).1).options
            n =
          optionsGet (((e.apply_event (.option n o)).1)).options n := by
  refine ⟨?_, ?_, ?_⟩
  · simp [Engine.apply_event, UciOption.limit_max, optionsGet_insert_self]
  · simp [Engine.apply_event, UciOption.limit_max, optionsGet_insert_self]
  · intro n o
    simp [Engine.apply_event, optionsGet_insert_self]

/-- C8: a handshake-complete event sets `pending_uciok` to
max(pending_uciok − 1, 0) and a ready-acknowledgment sets `pending_readyok`
to max(pending_readyok − 1, 0); both counters stay non-negative under every
sequence of received events. -/
theorem c8_saturating_acks (e : Engine) :
    (((e.apply_event .uciok).1.pending_uciok : Int) =
        max ((e.pending_uciok : Int) - 1) 0) ∧
      (((e.apply_event .readyok).1.pending_readyok : Int) =
        max ((e.pending_readyok : Int) - 1) 0) ∧
      ∀ evs : List UciOut,
        0 ≤ ((evs.foldl (fun s ev => (s.apply_event ev).1) e).pending_uciok : Int) ∧
          0 ≤ ((evs.foldl (fun s ev => (s.apply_event ev).1) e).pending_readyok : Int) := by
  refine ⟨?_, ?_, ?_⟩
  · simp only [Engine.apply_event]
    omega
  · simp only [Engine.apply_event]
    omega
  · intro evs
    exact ⟨Int.natCast_nonneg _, Int.natCast_nonneg _⟩

/-- C9: the receive path skips a progress-info event exactly when none of its
structured sub-fields are populated, and returns every non-skipped event to
the caller after the state-machine update. -/
theorem c9_noise_filter (e : Engine) :
    (∀ (pv : Option (List String)) (score : Option Int) (str : Option String),
        skipNoise (.info pv score str) = true ↔
          pv = none ∧ score = none ∧ str = none) ∧
      (∀ rest, e.recv (UciOut.info none none none :: rest) = e.recv rest) ∧
      ∀ (ev : UciOut) (rest : List UciOut), skipNoise ev = false →
        e.recv (ev :: rest) = .ok ((e.apply_event ev).1, (e.apply_event ev).2, rest) := by
  refine ⟨?_, ?_, ?_⟩
  · intro pv score str
    cases pv <;> cases score <;> cases str <;> simp [skipNoise]
  · intro rest
    simp [Engine.recv, skipNoise]
  · intro ev rest h
    simp [Engine.recv, h]

/-- C9 witness: a progress-info event with a populated text sub-field is not
skipped and is returned after the state update. -/
theorem c9_noise_filter_witness :
    (Engine.init ⟨4, 16⟩).recv [UciOut.info none none (some "mate")] =
      .ok (((Engine.init ⟨4, 16⟩).apply_event (UciOut.info none none (some "mate"))).1,
        ((Engine.init ⟨4, 16⟩).apply_event (UciOut.info none none (some "mate"))).2,
        []) :=
  (c9_noise_filter (Engine.init ⟨4, 16⟩)).2.2 (UciOut.info none none (some "mate")) []
    (by decide)

/-- The receive-path state update never sets the busy flag. -/
theorem apply_event_searching (e : Engine) (ev : UciOut) (h : e.searching = false) :
    (((e.apply_event ev).1)).searching = false := by
  cases ev <;> simp [Engine.apply_event, h]

/-- The receive loop never sets the busy flag. -/
theorem recv_searching :
    ∀ (script : List UciOut) (e e2 : Engine) (ev : UciOut) (rest : List UciOut),
      e.recv script = .ok (e2, ev, rest) → e.searching = false →
      e2.searching = false := by
  intro script
  induction script with
  | nil =>
    intro e e2 ev rest h hs
    simp [Engine.recv] at h
  | cons a as ih =>
    intro e e2 ev rest h hs
    simp only [Engine.recv] at h
    by_cases hskip : skipNoise a = true
    · rw [if_pos hskip] at h
      exact ih e e2 ev rest h hs
    · rw [if_neg hskip] at h
      simp only [Except.ok.injEq, Prod.mk.injEq] at h
      rw [← h.1]
      exact apply_event_searching e a hs

/-- When the busy flag starts clear, the ensure-idle loop never transmits
anything: the interrupt/probe pair is only synthesized while searching, and
receiving events cannot set the flag. -/
theorem ensure_idle_not_searching (isSafe : String → Bool) :
    ∀ (fuel : Nat) (e : Engine) (script : List UciOut) (e2 : Engine)
      (outs : List UciIn), e.searching = false →
      Engine.ensure_idle isSafe fuel e script = some (e2, outs) → outs = [] := by
  intro fuel
  induction fuel with
  | zero =>
    intro e script e2 outs hs h
    simp [Engine.ensure_idle] at h
  | succ n ih =>
    intro e script e2 outs hs h
    simp only [Engine.ensure_idle, hs, Bool.false_and, Bool.false_eq_true, if_false,
      List.nil_append] at h
    split at h
    · simp only [Option.some.injEq, Prod.mk.injEq] at h
      exact h.2.symm
    · rcases hrec : e.recv script with err | trip
      · rw [hrec] at h
        cases h
      · obtain ⟨e3, ev, rest⟩ := trip
        rw [hrec] at h
        dsimp only at h
        rcases hrest : Engine.ensure_idle isSafe n e3 rest with _ | p
        · rw [hrest] at h
          cases h
        · obtain ⟨e4, outs2⟩ := p
          rw [hrest] at h
          simp only [Option.some.injEq, Prod.mk.injEq] at h
          rw [← h.2]
          exact ih e3 rest e4 outs2 (recv_searching script e e3 ev rest hrec hs) hrest

/-- C7: from a busy state with no readiness probe outstanding, ensure-idle
against a cooperative simulated engine (which answers with a search result
followed by a ready acknowledgment) transmits exactly one interrupt
immediately followed by one readiness probe; with a probe already outstanding
it transmits nothing against the same cooperative engine, and when not busy it
never transmits anything at all. -/
theorem c7_ensure_idle_probes (isSafe : String → Bool) :
    (∀ e : Engine, e.searching = true → e.pending_readyok = 0 →
        e.pending_uciok = 0 →
        Engine.ensure_idle isSafe 3 e [.bestmove, .readyok] =
          some ({ e with searching := false }, [UciIn.stop, UciIn.isready])) ∧
      (∀ e : Engine, e.searching = true → e.pending_readyok = 1 →
        e.pending_uciok = 0 →
        Engine.ensure_idle isSafe 3 e [.bestmove, .readyok] =
          some ({ e with searching := false, pending_readyok := 0 }, [])) ∧
      ∀ (fuel : Nat) (e : Engine) (script : List UciOut) (e2 : Engine)
        (outs : List UciIn), e.searching = false →
        Engine.ensure_idle isSafe fuel e script = some (e2, outs) → outs = [] := by
  refine ⟨?_, ?_, ensure_idle_not_searching isSafe⟩
  · intro e hs hr hu
    obtain ⟨pu, pr, s, opts, nm, ps⟩ := e
    change s = true at hs
    change pr = 0 at hr
    change pu = 0 at hu
    subst hs
    subst hr
    subst hu
    rfl
  · intro e hs hr hu
    obtain ⟨pu, pr, s, opts, nm, ps⟩ := e
    change s = true at hs
    change pr = 1 at hr
    change pu = 0 at hu
    subst hs
    subst hr
    subst hu
    rfl

/-- C7 witness: the three behaviours at concrete states — the interrupt/probe
pair from a busy state, silence from a busy state with an outstanding probe,
and silence from an idle non-busy state. -/
theorem c7_ensure_idle_probes_witness :
    Engine.ensure_idle (fun _ => true) 3 busyEngine [.bestmove, .readyok] =
        some ({ busyEngine with searching := false },
          [UciIn.stop, UciIn.isready]) ∧
      Engine.ensure_idle (fun _ => true) 3
          { busyEngine with pending_readyok := 1 } [.bestmove, .readyok] =
        some ({ busyEngine with searching := false, pending_readyok := 0 }, []) ∧
      ([] : List UciIn) = [] :=
  ⟨(c7_ensure_idle_probes (fun _ => true)).1 busyEngine rfl rfl rfl,
    (c7_ensure_idle_probes (fun _ => true)).2.1
      { busyEngine with pending_readyok := 1 } rfl rfl rfl,
    (c7_ensure_idle_probes (fun _ => true)).2.2 1 hashEngine [] hashEngine []
      rfl (by decide)⟩

/-- C10: whenever the unscreened send reports a recoverable error, the whole
engine state is returned unchanged. -/
theorem c10_error_atomicity (e : Engine) (c : UciIn) (err : SendError)
    (h : (e.send_dangerous c).2.2 = some err) :
    (e.send_dangerous c).1 = e := by
  cases c with
  | isready => simp [Engine.send_dangerous] at h
  | stop => simp [Engine.send_dangerous] at h
  | ponderhit => simp [Engine.send_dangerous] at h
  | setoption n v =>
    by_cases hs : e.searching = true
    · simp [Engine.send_dangerous, hs]
    · rcases ho : optionsGet e.options n with _ | o
      · simp [Engine.send_dangerous, hs, ho]
      · by_cases hv : o.validate v = true
        · simp [Engine.send_dangerous, hs, ho, hv] at h
        · simp [Engine.send_dangerous, hs, ho, hv]
  | uci =>
    by_cases hs : e.searching = true
    · simp [Engine.send_dangerous, hs]
    · simp [Engine.send_dangerous, hs] at h
  | go =>
    by_cases hs : e.searching = true
    · simp [Engine.send_dangerous, hs]
    · simp [Engine.send_dangerous, hs] at h
  | ucinewgame =>
    by_cases hs : e.searching = true
    · simp [Engine.send_dangerous, hs]
    · simp [Engine.send_dangerous, hs] at h

/-- C10 witness: a search-start rejected while busy leaves the state exactly
as it was. -/
theorem c10_error_atomicity_witness :
    (busyEngine.send_dangerous .go).2.2 = some .resourceBusy ∧
      (busyEngine.send_dangerous .go).1 = busyEngine :=
  ⟨by decide, c10_error_atomicity busyEngine .go .resourceBusy (by decide)⟩

end RemoteUci
